import Mathlib

/-!
Verification of the checkpoint persistence layer in
`nemo/lightning/io/pl.py` (MegatronCheckpointIO, ckpt_to_dir,
is_distributed_ckpt, _fix_tensors_device).

A path is modelled as a parent chain of components plus a final name
component; a component is a list of characters.  The `pathlib`
operations used by the source (`suffix`, `stem`, `with_suffix`,
`with_name`) are embedded at the character-list level, following the
CPython `pathlib` implementation.  The filesystem abstraction and the
Megatron dist-checkpointing backend are external collaborators; they
are modelled by an explicit finite filesystem state and a backend
record of oracle functions.  Store operations additionally return the
list of collaborator calls they performed (their effect trace).
-/

set_option autoImplicit false
set_option linter.unusedVariables false

abbrev Component := List Char

/-- Error kinds; one constructor per raise site in the source
(`TypeError` for storage_options, `ValueError` for map_location,
non-directory load targets and invalid pathlib arguments,
`FileNotFoundError`, `AssertionError`, plus errors propagated from the
external backend). -/
inductive Err where
  | typeError
  | valueErrorMapLocation
  | valueErrorNotADirectory
  | fileNotFoundError
  | assertionError
  | valueErrorInvalidSuffix
  | valueErrorEmptyName
  | valueErrorInvalidName
  | backendError (msg : String)
deriving DecidableEq, Repr

/-- A parsed path: parent components plus the final component
(`pathlib`'s `name`).  All operations performed by the source act on
the final component only. -/
structure PyPath where
  parent : List Component
  name : Component
deriving DecidableEq, Repr

/-- Full component list of a path, used as the key under which the
filesystem and the backend see this path. -/
def PyPath.comps (p : PyPath) : List Component := p.parent ++ [p.name]

/-- Position of the last '.' in a name (CPython `str.rfind('.')`,
restricted to the found case). -/
def rfindDot : List Char → Option Nat
  | [] => none
  | c :: cs =>
    match rfindDot cs with
    | some i => some (i + 1)
    | none => if c = '.' then some 0 else none

/-- The `pathlib` `suffix` property: the part of the name from the last
dot on, provided that dot is neither the first nor the last character;
otherwise empty. -/
def pySuffix (n : List Char) : List Char :=
  match rfindDot n with
  | some i => if 0 < i ∧ i < n.length - 1 then n.drop i else []
  | none => []

/-- The `pathlib` `stem` property: the name with `pySuffix` removed. -/
def pyStem (n : List Char) : List Char :=
  match rfindDot n with
  | some i => if 0 < i ∧ i < n.length - 1 then n.take i else n
  | none => n

/-- POSIX path separator. -/
def sep : Char := '/'

/-- The `pathlib` `with_suffix` method: validates the new suffix,
requires a non-empty name, and replaces the old suffix (if any) by the
new one. -/
def with_suffix (p : PyPath) (s : List Char) : Except Err PyPath :=
  if sep ∈ s then .error .valueErrorInvalidSuffix
  else if (s ≠ [] ∧ s.head? ≠ some '.') ∨ s = ['.'] then .error .valueErrorInvalidSuffix
  else if p.name = [] then .error .valueErrorEmptyName
  else if pySuffix p.name = [] then .ok { p with name := p.name ++ s }
  else .ok { p with name := p.name.take (p.name.length - (pySuffix p.name).length) ++ s }

/-- The `pathlib` `with_name` method: requires a non-empty current
name and a new name that parses as exactly one component (non-empty,
no separator, not the '.' pseudo-component). -/
def with_name (p : PyPath) (n : Component) : Except Err PyPath :=
  if p.name = [] then .error .valueErrorEmptyName
  else if n = [] ∨ sep ∈ n ∨ n = ['.'] then .error .valueErrorInvalidName
  else .ok { p with name := n }

instance exceptDecEq {ε α : Type} [DecidableEq ε] [DecidableEq α] : DecidableEq (Except ε α) := fun
  | .error e, .error f =>
    if h : e = f then .isTrue (by rw [h]) else .isFalse (by intro hc; cases hc; exact h rfl)
  | .error _, .ok _ => .isFalse (by intro hc; cases hc)
  | .ok _, .error _ => .isFalse (by intro hc; cases hc)
  | .ok a, .ok b =>
    if h : a = b then .isTrue (by rw [h]) else .isFalse (by intro hc; cases hc; exact h rfl)

/-- The reserved marker extension used by PTL checkpoint naming. -/
def ckptMarker : List Char := ".ckpt".data

/-- Embedding of `ckpt_to_dir`: append the marker extension when the
suffix is not already the marker, assert the marker is present, then
strip it via `with_name`/`stem` to obtain the checkpoint directory. -/
def ckpt_to_dir (filepath : PyPath) : Except Err PyPath :=
  match (if pySuffix filepath.name = ckptMarker then Except.ok filepath
         else with_suffix filepath (pySuffix filepath.name ++ ckptMarker)) with
  | .error e => .error e
  | .ok fp =>
    if pySuffix fp.name = ckptMarker then with_name fp (pyStem fp.name)
    else .error .assertionError

/-! ## Filesystem model

The fsspec filesystem collaborator of the source supports existence
checks, directory checks, recursive makedirs and recursive removal.
It is modelled as a finite association list from full component lists
to node kinds. -/

inductive NodeKind where
  | dir
  | file
deriving DecidableEq, Repr

structure FS where
  nodes : List (List Component × NodeKind)
deriving DecidableEq, Repr

def FS.lookup (fs : FS) (p : List Component) : Option NodeKind :=
  (fs.nodes.find? (fun e => decide (e.1 = p))).map (fun e => e.2)

/-- Model of `fs.exists(path)`. -/
def FS.existsb (fs : FS) (p : List Component) : Bool :=
  (fs.lookup p).isSome

/-- Model of `fs.isdir(path)`. -/
def FS.isdir (fs : FS) (p : List Component) : Bool :=
  decide (fs.lookup p = some NodeKind.dir)

/-- Nonempty prefixes of a component list. -/
def prefixesOf (p : List Component) : List (List Component) :=
  (List.range p.length).map (fun i => p.take (i + 1))

/-- Model of `fs.makedirs(path, exist_ok=True)`: every missing prefix
of the path becomes a directory. -/
def FS.makedirs (fs : FS) (p : List Component) : FS :=
  FS.mk (fs.nodes ++ ((prefixesOf p).filter (fun q => !(fs.existsb q))).map (fun q => (q, NodeKind.dir)))

/-- Model of `fs.rm(path, recursive=True)`: drop the node at the path
and every node below it. -/
def FS.rmtree (fs : FS) (p : List Component) : FS :=
  FS.mk (fs.nodes.filter (fun e => !(p.isPrefixOf e.1)))

/-! ## Checkpoint payloads and the device fixup pass -/

/-- Torch device of a tensor. -/
inductive Device where
  | cpu
  | cuda (index : Nat)
deriving DecidableEq, Repr

/-- Model of `torch.Tensor.is_cuda`. -/
def Device.is_cuda : Device → Bool
  | .cpu => false
  | .cuda _ => true

/-- Checkpoint payload values: tensor leaves, non-tensor leaves, and
nested dict/list structure.  A mapping or sequence is encoded as a
cons chain whose entries carry `some key` (dict entry) or `none`
(sequence element). -/
inductive Value where
  | tensor (dev : Device) (data : Int)
  | scalar (data : Int)
  | nil
  | cons (key : Option Component) (head : Value) (tail : Value)
deriving DecidableEq, Repr

/-- Modelled from the spec: the external traversal helper
`megatron.core.dist_checkpointing.dict_utils.dict_list_map_outplace`
(not part of this repository) applies a function to every leaf of the
nested mapping/sequence structure out-of-place, preserving the
structure itself. -/
def dict_list_map_outplace (f : Value → Value) : Value → Value
  | .tensor d x => f (.tensor d x)
  | .scalar x => f (.scalar x)
  | .nil => .nil
  | .cons k h t => .cons k (dict_list_map_outplace f h) (dict_list_map_outplace f t)

/-- Embedding of the inner `_fix_device` closure: a cuda tensor not on
the current device is copied to the current device; any other value is
returned unchanged. -/
def _fix_device (cur_dev : Device) (t : Value) : Value :=
  match t with
  | .tensor d x => if d.is_cuda ∧ d ≠ cur_dev then .tensor cur_dev x else .tensor d x
  | t => t

/-- Embedding of `_fix_tensors_device`: asserts that cuda is
initialized, then maps `_fix_device` over the payload out-of-place.
The cuda runtime state (`torch.cuda.is_initialized()`,
`torch.cuda.current_device()`) is passed in explicitly. -/
def _fix_tensors_device (cuda_is_initialized : Bool) (current_device : Nat) (ckpt : Value) : Except Err Value :=
  if cuda_is_initialized then
    .ok (dict_list_map_outplace (_fix_device (Device.cuda current_device)) ckpt)
  else
    .error .assertionError

/-- Predicate used to state the no-op direction of the device fixup:
every tensor leaf is already on the given current cuda device. -/
def allTensorsOnCurrent (cur : Nat) : Value → Bool
  | .tensor d _ => decide (d = Device.cuda cur)
  | .scalar _ => true
  | .nil => true
  | .cons _ h t => allTensorsOnCurrent cur h && allTensorsOnCurrent cur t

/-! ## The store operations -/

/-- The external Megatron dist-checkpointing backend: the validity
probe `check_is_distributed_checkpoint` and the sharded read `load`
(which receives the sharded state dict hint and the checkpoint
directory, and may fail with a backend-specific error). -/
structure Backend where
  check_is_distributed_checkpoint : List Component → Bool
  load : Option Value → List Component → Except String Value

/-- Collaborator calls a store operation can perform, with the path
each call targets. -/
inductive Event where
  | queryIsDir (p : List Component)
  | probeComplete (p : List Component)
  | queryExists (p : List Component)
  | makedirs (p : List Component)
  | backendSave (p : List Component)
  | backendLoad (p : List Component)
  | rmTree (p : List Component)
deriving DecidableEq, Repr

/-- Path targeted by a collaborator call. -/
def Event.target : Event → List Component
  | .queryIsDir p => p
  | .probeComplete p => p
  | .queryExists p => p
  | .makedirs p => p
  | .backendSave p => p
  | .backendLoad p => p
  | .rmTree p => p

/-- Embedding of `MegatronCheckpointIO.save_checkpoint`: reject
`storage_options`, normalize the path, skip when the directory already
holds a complete distributed checkpoint, otherwise create the
directory and delegate to the backend write.  Returns the outcome, the
final filesystem and the trace of collaborator calls. -/
def save_checkpoint {α : Type} (be : Backend) (fs : FS) (checkpoint : Value) (path : PyPath)
    (storage_options : Option α) : Except Err Unit × FS × List Event :=
  if storage_options.isSome then (.error .typeError, fs, [])
  else
    match ckpt_to_dir path with
    | .error e => (.error e, fs, [])
    | .ok dir =>
      if fs.isdir dir.comps then
        if be.check_is_distributed_checkpoint dir.comps then
          (.ok (), fs, [.queryIsDir dir.comps, .probeComplete dir.comps])
        else
          (.ok (), fs.makedirs dir.comps,
            [.queryIsDir dir.comps, .probeComplete dir.comps, .makedirs dir.comps, .backendSave dir.comps])
      else
        (.ok (), fs.makedirs dir.comps,
          [.queryIsDir dir.comps, .makedirs dir.comps, .backendSave dir.comps])

/-- Embedding of `MegatronCheckpointIO.load_checkpoint`: reject
`map_location`, check existence and directory-ness of the raw path,
delegate to the backend read, pipe the result through
`_fix_tensors_device`.  Returns the outcome and the trace of
collaborator calls. -/
def load_checkpoint {β : Type} (be : Backend) (fs : FS) (cuda_is_initialized : Bool)
    (current_device : Nat) (path : PyPath) (sharded_state_dict : Option Value)
    (map_location : Option β) : Except Err Value × List Event :=
  if map_location.isSome then (.error .valueErrorMapLocation, [])
  else if !(fs.existsb path.comps) then
    (.error .fileNotFoundError, [.queryExists path.comps])
  else if !(fs.isdir path.comps) then
    (.error .valueErrorNotADirectory, [.queryExists path.comps, .queryIsDir path.comps])
  else
    match be.load sharded_state_dict path.comps with
    | .error s =>
      (.error (.backendError s), [.queryExists path.comps, .queryIsDir path.comps, .backendLoad path.comps])
    | .ok ckpt =>
      match _fix_tensors_device cuda_is_initialized current_device ckpt with
      | .error e =>
        (.error e, [.queryExists path.comps, .queryIsDir path.comps, .backendLoad path.comps])
      | .ok fixed =>
        (.ok fixed, [.queryExists path.comps, .queryIsDir path.comps, .backendLoad path.comps])

/-- Embedding of `MegatronCheckpointIO.remove_checkpoint`: recursively
remove the path when it exists, otherwise do nothing.  No failure
outcome exists in the source.  Returns the final filesystem and the
trace of collaborator calls. -/
def remove_checkpoint (fs : FS) (path : PyPath) : FS × List Event :=
  if fs.existsb path.comps then
    (fs.rmtree path.comps, [.queryExists path.comps, .rmTree path.comps])
  else
    (fs, [.queryExists path.comps])

/-- Embedding of `is_distributed_ckpt`: normalize through
`ckpt_to_dir`, then report whether the directory exists as a directory
and the backend probe confirms a complete distributed checkpoint. -/
def is_distributed_ckpt (be : Backend) (fs : FS) (path : PyPath) : Except Err Bool :=
  match ckpt_to_dir path with
  | .error e => .error e
  | .ok checkpoint_dir =>
    if fs.isdir checkpoint_dir.comps ∧ be.check_is_distributed_checkpoint checkpoint_dir.comps then
      .ok true
    else
      .ok false

/-- A backend whose validity probe always answers false and whose read
always fails; used to instantiate universally quantified statements. -/
def beNo : Backend :=
  Backend.mk (fun _ => false) (fun _ _ => .error "missing")

/-- A backend whose validity probe always answers true and whose read
always returns an empty payload; used to instantiate universally
quantified statements. -/
def beYes : Backend :=
  Backend.mk (fun _ => true) (fun _ _ => .ok .nil)

/-! ## Sanity checks of the path embedding -/

example : pySuffix "model.pt".data = ".pt".data := by decide
example : pySuffix "model.ckpt".data = ".ckpt".data := by decide
example : pySuffix ".ckpt".data = [] := by decide
example : pySuffix "a.".data = [] := by decide
example : pyStem "model.ckpt".data = "model".data := by decide
example : ckpt_to_dir ⟨[], "model.pt".data⟩ = .ok ⟨[], "model.pt".data⟩ := by decide
example : ckpt_to_dir ⟨[], "model.ckpt".data⟩ = .ok ⟨[], "model".data⟩ := by decide
example : ckpt_to_dir ⟨[], "model".data⟩ = .ok ⟨[], "model".data⟩ := by decide
example : ckpt_to_dir ⟨[], "a.ckpt.ckpt".data⟩ = .ok ⟨[], "a.ckpt".data⟩ := by decide
example : ckpt_to_dir ⟨[], "..ckpt".data⟩ = .error .valueErrorInvalidName := by decide
example : ckpt_to_dir ⟨[], ".ckpt".data⟩ = .ok ⟨[], ".ckpt".data⟩ := by decide
example : ckpt_to_dir ⟨[], []⟩ = .error .valueErrorEmptyName := by decide

/-! ## Lemmas about the pathlib embedding -/

theorem rfindDot_marker : rfindDot ckptMarker = some 0 := rfl

theorem rfindDot_append {m : List Char} {j : Nat} (n : List Char) (h : rfindDot m = some j) :
    rfindDot (n ++ m) = some (n.length + j) := by
  induction n with
  | nil => simpa using h
  | cons c cs ih =>
    show (match rfindDot (cs ++ m) with
          | some i => some (i + 1)
          | none => if c = '.' then some 0 else none) = some ((c :: cs).length + j)
    rw [ih]
    simp only [List.length_cons, Option.some.injEq]
    omega

theorem rfindDot_head {n : List Char} {i : Nat} (h : rfindDot n = some i) :
    (n.drop i).head? = some '.' := by
  induction n generalizing i with
  | nil => cases h
  | cons c cs ih =>
    simp only [rfindDot] at h
    cases hr : rfindDot cs with
    | some j =>
      rw [hr] at h
      cases h
      exact ih hr
    | none =>
      rw [hr] at h
      by_cases hc : c = '.'
      · rw [if_pos hc] at h
        cases h
        simp [hc]
      · rw [if_neg hc] at h
        cases h

theorem pySuffix_cases (n : List Char) :
    (pySuffix n = [] ∧ pyStem n = n) ∨
    ∃ i, rfindDot n = some i ∧ 0 < i ∧ i < n.length - 1 ∧
      pySuffix n = n.drop i ∧ pyStem n = n.take i := by
  cases hr : rfindDot n with
  | none => exact .inl ⟨by simp [pySuffix, hr], by simp [pyStem, hr]⟩
  | some i =>
    by_cases hc : 0 < i ∧ i < n.length - 1
    · exact .inr ⟨i, rfl, hc.1, hc.2, by simp [pySuffix, hr, hc], by simp [pyStem, hr, hc]⟩
    · exact .inl ⟨by simp [pySuffix, hr, hc], by simp [pyStem, hr, hc]⟩

theorem pyStem_append_pySuffix (n : List Char) : pyStem n ++ pySuffix n = n := by
  rcases pySuffix_cases n with ⟨h1, h2⟩ | ⟨i, _, _, _, h1, h2⟩
  · rw [h1, h2, List.append_nil]
  · rw [h1, h2, List.take_append_drop]

theorem pySuffix_append_marker {n : List Char} (h : n ≠ []) :
    pySuffix (n ++ ckptMarker) = ckptMarker := by
  have hr := rfindDot_append n rfindDot_marker
  have hlen : 0 < n.length := List.length_pos.mpr h
  have hm : ckptMarker.length = 5 := rfl
  simp only [Nat.add_zero] at hr
  simp only [pySuffix, hr]
  rw [if_pos ⟨hlen, by rw [List.length_append]; omega⟩]
  exact List.drop_left n ckptMarker

theorem pyStem_append_marker {n : List Char} (h : n ≠ []) :
    pyStem (n ++ ckptMarker) = n := by
  have hr := rfindDot_append n rfindDot_marker
  have hlen : 0 < n.length := List.length_pos.mpr h
  have hm : ckptMarker.length = 5 := rfl
  simp only [Nat.add_zero] at hr
  simp only [pyStem, hr]
  rw [if_pos ⟨hlen, by rw [List.length_append]; omega⟩]
  exact List.take_left n ckptMarker

theorem pySuffix_nil_stem {n : List Char} (h : pySuffix n = []) : pyStem n = n := by
  rcases pySuffix_cases n with ⟨_, h2⟩ | ⟨i, _, hi0, hi1, h1, _⟩
  · exact h2
  · exfalso
    rw [h1] at h
    have hle := List.drop_eq_nil_iff.mp h
    omega

theorem pySuffix_head {n : List Char} (h : pySuffix n ≠ []) :
    (pySuffix n).head? = some '.' := by
  rcases pySuffix_cases n with ⟨h1, _⟩ | ⟨i, hr, _, _, h1, _⟩
  · exact absurd h1 h
  · rw [h1]
    exact rfindDot_head hr

theorem with_name_ok {p : PyPath} {n : Component} {q : PyPath} (h : with_name p n = .ok q) :
    q = { p with name := n } ∧ p.name ≠ [] ∧ n ≠ [] ∧ sep ∉ n ∧ n ≠ ['.'] := by
  unfold with_name at h
  split at h
  · exact Except.noConfusion h
  · rename_i hne
    split at h
    · exact Except.noConfusion h
    · rename_i hval
      cases h
      push_neg at hval
      exact ⟨rfl, hne, hval.1, hval.2.1, hval.2.2⟩

theorem with_name_eq_ok {p : PyPath} {n : Component} (h1 : p.name ≠ [])
    (h2 : ¬(n = [] ∨ sep ∈ n ∨ n = ['.'])) :
    with_name p n = .ok { p with name := n } := by
  unfold with_name
  rw [if_neg h1, if_neg h2]

theorem with_suffix_ok {p : PyPath} {s : List Char} {q : PyPath}
    (h : with_suffix p s = .ok q) :
    p.name ≠ [] ∧ q.parent = p.parent ∧ q.name = pyStem p.name ++ s := by
  unfold with_suffix at h
  split at h
  · exact Except.noConfusion h
  split at h
  · exact Except.noConfusion h
  split at h
  · exact Except.noConfusion h
  rename_i hne
  split at h
  · rename_i hnil
    cases h
    exact ⟨hne, rfl, by rw [pySuffix_nil_stem hnil]⟩
  · rename_i hnnil
    cases h
    refine ⟨hne, rfl, ?_⟩
    rcases pySuffix_cases p.name with ⟨hz, _⟩ | ⟨i, _, hi0, hi1, hsfx, hstem⟩
    · exact absurd hz hnnil
    · have hlen : p.name.length - (pySuffix p.name).length = i := by
        rw [hsfx, List.length_drop]
        omega
      rw [hlen, hstem]

theorem with_suffix_marker {p : PyPath} (h1 : p.name ≠ []) (h3 : sep ∉ p.name) :
    with_suffix p (pySuffix p.name ++ ckptMarker) =
      .ok { p with name := p.name ++ ckptMarker } := by
  have hsub : sep ∉ pySuffix p.name ++ ckptMarker := by
    intro hm
    rcases List.mem_append.mp hm with hm1 | hm2
    · rcases pySuffix_cases p.name with ⟨hz, _⟩ | ⟨i, _, _, _, hz, _⟩
      · rw [hz] at hm1
        cases hm1
      · rw [hz] at hm1
        exact h3 (List.drop_subset _ _ hm1)
    · revert hm2
      decide
  have hhead : (pySuffix p.name ++ ckptMarker).head? = some '.' := by
    cases hz : pySuffix p.name with
    | nil => rfl
    | cons c t =>
      have hh := pySuffix_head (n := p.name) (by rw [hz]; simp)
      rw [hz] at hh
      simpa using hh
  have hvalid : ¬((pySuffix p.name ++ ckptMarker ≠ [] ∧
      (pySuffix p.name ++ ckptMarker).head? ≠ some '.') ∨
      pySuffix p.name ++ ckptMarker = ['.']) := by
    intro hc
    rcases hc with ⟨_, hcb⟩ | hcb
    · exact hcb hhead
    · have hl := congrArg List.length hcb
      rw [List.length_append] at hl
      have hm : ckptMarker.length = 5 := rfl
      simp only [hm, List.length_cons, List.length_nil] at hl
      omega
  unfold with_suffix
  rw [if_neg hsub, if_neg hvalid, if_neg h1]
  by_cases hz : pySuffix p.name = []
  · rw [if_pos hz, hz]
    rfl
  · rw [if_neg hz]
    rcases pySuffix_cases p.name with ⟨hz2, _⟩ | ⟨i, _, hi0, hi1, hsfx, hstem⟩
    · exact absurd hz2 hz
    · have hlen : p.name.length - (pySuffix p.name).length = i := by
        rw [hsfx, List.length_drop]
        omega
      rw [hlen, ← List.append_assoc, ← hstem, pyStem_append_pySuffix]

theorem ckpt_to_dir_id {p : PyPath} (h1 : p.name ≠ []) (h2 : p.name ≠ ['.'])
    (h3 : sep ∉ p.name) (h4 : pySuffix p.name ≠ ckptMarker) :
    ckpt_to_dir p = .ok p := by
  have hmark : ckptMarker ≠ [] := by decide
  have happ : p.name ++ ckptMarker ≠ [] := by
    intro hc
    exact hmark (List.append_eq_nil.mp hc).2
  unfold ckpt_to_dir
  rw [if_neg h4, with_suffix_marker h1 h3]
  show (if pySuffix (p.name ++ ckptMarker) = ckptMarker then
      with_name { p with name := p.name ++ ckptMarker } (pyStem (p.name ++ ckptMarker))
    else Except.error Err.assertionError) = Except.ok p
  rw [if_pos (pySuffix_append_marker h1), pyStem_append_marker h1]
  have hval : ¬(p.name = [] ∨ sep ∈ p.name ∨ p.name = ['.']) := by
    intro hc
    rcases hc with hc | hc | hc
    · exact h1 hc
    · exact h3 hc
    · exact h2 hc
  exact with_name_eq_ok happ hval

theorem ckpt_to_dir_strip {p : PyPath} (h1 : pySuffix p.name = ckptMarker)
    (h2 : pyStem p.name ≠ ['.']) (h3 : sep ∉ p.name) :
    ckpt_to_dir p = .ok { p with name := pyStem p.name } := by
  have hne : p.name ≠ [] := by
    intro hc
    rw [hc] at h1
    exact absurd h1 (by decide)
  unfold ckpt_to_dir
  rw [if_pos h1]
  show (if pySuffix p.name = ckptMarker then with_name p (pyStem p.name)
    else Except.error Err.assertionError) = _
  rw [if_pos h1]
  apply with_name_eq_ok hne
  intro hc
  rcases hc with hc | hc | hc
  · rcases pySuffix_cases p.name with ⟨hz, _⟩ | ⟨i, _, hi0, hi1, _, hstem⟩
    · rw [hz] at h1
      exact absurd h1.symm (by decide)
    · rw [hstem] at hc
      rcases List.take_eq_nil_iff.mp hc with hc2 | hc2
      · omega
      · exact hne hc2
  · rcases pySuffix_cases p.name with ⟨_, hstem⟩ | ⟨i, _, _, _, _, hstem⟩
    · rw [hstem] at hc
      exact h3 hc
    · rw [hstem] at hc
      exact h3 (List.take_subset _ _ hc)
  · exact h2 hc

theorem ckpt_to_dir_dot_stem {p : PyPath} (h1 : pySuffix p.name = ckptMarker)
    (h2 : pyStem p.name = ['.']) :
    ckpt_to_dir p = .error .valueErrorInvalidName := by
  have hne : p.name ≠ [] := by
    intro hc
    rw [hc] at h1
    exact absurd h1 (by decide)
  unfold ckpt_to_dir
  rw [if_pos h1]
  show (if pySuffix p.name = ckptMarker then with_name p (pyStem p.name)
    else Except.error Err.assertionError) = _
  rw [if_pos h1]
  unfold with_name
  rw [if_neg hne, if_pos (Or.inr (Or.inr h2))]

theorem ckpt_to_dir_ok_inv {p d : PyPath} (h : ckpt_to_dir p = .ok d) :
    d.name ≠ [] ∧ sep ∉ d.name ∧ d.name ≠ ['.'] ∧ d.parent = p.parent := by
  unfold ckpt_to_dir at h
  split at h
  · exact Except.noConfusion h
  · rename_i fp heq
    split at h
    · obtain ⟨hd, _, hn1, hn2, hn3⟩ := with_name_ok h
      subst hd
      refine ⟨hn1, hn2, hn3, ?_⟩
      show fp.parent = p.parent
      split at heq
      · cases heq
        rfl
      · exact (with_suffix_ok heq).2.1
    · exact Except.noConfusion h

theorem ckpt_to_dir_ok_unique {p d : PyPath} (h4 : pySuffix p.name ≠ ckptMarker)
    (h : ckpt_to_dir p = .ok d) : d = p := by
  rcases p with ⟨pp, pn⟩
  unfold ckpt_to_dir at h
  rw [if_neg h4] at h
  cases hws : with_suffix ⟨pp, pn⟩ (pySuffix pn ++ ckptMarker) with
  | error e =>
    rw [hws] at h
    exact Except.noConfusion h
  | ok fp =>
    rw [hws] at h
    obtain ⟨hpn, hpar, hname⟩ := with_suffix_ok hws
    have hn : fp.name = pn ++ ckptMarker := by
      rw [hname, ← List.append_assoc, pyStem_append_pySuffix]
    dsimp only at h
    rw [if_pos (by rw [hn]; exact pySuffix_append_marker hpn)] at h
    obtain ⟨hd, _, _, _, _⟩ := with_name_ok h
    subst hd
    show PyPath.mk fp.parent (pyStem fp.name) = _
    rw [hpar, hn, pyStem_append_marker hpn]

/-! ## Lemmas about the filesystem model and the device fixup -/

theorem isPrefixOf_self (l : List Component) : l.isPrefixOf l = true := by
  induction l with
  | nil => rfl
  | cons a t ih => simp [List.isPrefixOf, ih]

theorem find_filter_isPrefix (l : List (List Component × NodeKind)) (p q : List Component)
    (h : p.isPrefixOf q = true) :
    (l.filter (fun e => !(p.isPrefixOf e.1))).find? (fun e => decide (e.1 = q)) = none := by
  induction l with
  | nil => rfl
  | cons a t ih =>
    by_cases hp : p.isPrefixOf a.1
    · simp only [List.filter_cons, hp, Bool.not_true, Bool.false_eq_true, if_false]
      exact ih
    · have hne : a.1 ≠ q := by
        intro hc
        rw [hc] at hp
        exact hp h
      have h1 : (!(p.isPrefixOf a.1)) = true := by simp [hp]
      have hpa : decide (a.1 = q) = false := by simp [hne]
      simp only [List.filter_cons, h1, if_true, List.find?_cons, hpa, cond_false]
      exact ih

theorem FS.existsb_rmtree_false (fs : FS) (p : List Component) :
    (fs.rmtree p).existsb p = false := by
  unfold FS.existsb FS.lookup FS.rmtree
  rw [find_filter_isPrefix fs.nodes p p (isPrefixOf_self p)]
  rfl

theorem FS.exists_of_isdir {fs : FS} {p : List Component} (h : fs.isdir p = true) :
    fs.existsb p = true := by
  unfold FS.isdir at h
  unfold FS.existsb
  rcases hl : fs.lookup p with _ | k
  · rw [hl] at h
    simp at h
  · rfl

theorem FS.isdir_false_of_not_exists {fs : FS} {p : List Component} (h : fs.existsb p = false) :
    fs.isdir p = false := by
  unfold FS.existsb at h
  unfold FS.isdir
  rcases hl : fs.lookup p with _ | k
  · simp
  · rw [hl] at h
    simp at h

theorem map_fix_device_id {cur : Nat} {v : Value} (h : allTensorsOnCurrent cur v = true) :
    dict_list_map_outplace (_fix_device (Device.cuda cur)) v = v := by
  induction v with
  | tensor d x =>
    simp only [allTensorsOnCurrent, decide_eq_true_eq] at h
    subst h
    simp [dict_list_map_outplace, _fix_device]
  | scalar x => rfl
  | nil => rfl
  | cons k hd tl ih1 ih2 =>
    simp only [allTensorsOnCurrent, Bool.and_eq_true] at h
    simp [dict_list_map_outplace, ih1 h.1, ih2 h.2]

/-! ## Claim theorems -/

/-- Claim C2, counterexample: the claim states that for every path P,
whatever its extension, the persisted directory equals P itself.  For
the marker-suffixed path `model.ckpt` the code does not re-append the
marker; it only strips it, so the resulting directory is `model`,
which differs from P. -/
theorem c2_counterexample :
    ckpt_to_dir ⟨[], "model.ckpt".data⟩ = .ok ⟨[], "model".data⟩ ∧
    (⟨[], "model".data⟩ : PyPath) ≠ ⟨[], "model.ckpt".data⟩ :=
  ⟨by decide, by decide⟩

/-- Claim C2 (amended): for every path whose final component is a
well-formed name (non-empty, not the '.' pseudo-component, without a
separator), `ckpt_to_dir` returns the path unchanged when its suffix
is not the `.ckpt` marker; when its suffix is the marker the marker is
only stripped, yielding the stem as directory name if the stem is not
the '.' pseudo-component, and raising the `with_name` `ValueError` if
it is (names of the form `..ckpt`). -/
theorem c2_normalization (p : PyPath) (h1 : p.name ≠ []) (h2 : p.name ≠ ['.'])
    (h3 : sep ∉ p.name) :
    (pySuffix p.name ≠ ckptMarker → ckpt_to_dir p = .ok p) ∧
    (pySuffix p.name = ckptMarker → pyStem p.name ≠ ['.'] →
      ckpt_to_dir p = .ok { p with name := pyStem p.name }) ∧
    (pySuffix p.name = ckptMarker → pyStem p.name = ['.'] →
      ckpt_to_dir p = .error .valueErrorInvalidName) :=
  ⟨fun h4 => ckpt_to_dir_id h1 h2 h3 h4,
   fun hm hst => ckpt_to_dir_strip hm hst h3,
   fun hm hst => ckpt_to_dir_dot_stem hm hst⟩

/-- Claim C2, witness: the amended theorem applied at the concrete
path `model.pt`, whose suffix is not the marker, yields the path
itself; applied at `model.ckpt` it yields the stripped stem; applied
at `..ckpt`, whose stem is '.', it yields the `ValueError`. -/
theorem c2_witness :
    ckpt_to_dir ⟨[], "model.pt".data⟩ = .ok ⟨[], "model.pt".data⟩ ∧
    ckpt_to_dir ⟨[], "model.ckpt".data⟩ = .ok ⟨[], "model".data⟩ ∧
    ckpt_to_dir ⟨[], "..ckpt".data⟩ = .error .valueErrorInvalidName :=
  ⟨(c2_normalization ⟨[], "model.pt".data⟩ (by decide) (by decide) (by decide)).1 (by decide),
   (c2_normalization ⟨[], "model.ckpt".data⟩ (by decide) (by decide) (by decide)).2.1
     (by decide) (by decide),
   (c2_normalization ⟨[], "..ckpt".data⟩ (by decide) (by decide) (by decide)).2.2
     (by decide) (by decide)⟩

/-- Claim C3: for every path P whose suffix is not the `.ckpt`
marker, re-applying `ckpt_to_dir` to the directory result with the
marker re-appended gives back the same directory.  Errors of the first
normalization propagate to both sides unchanged. -/
theorem c3_idempotent_on_unsuffixed (p : PyPath) (h : pySuffix p.name ≠ ckptMarker) :
    (ckpt_to_dir p).bind (fun d => ckpt_to_dir { d with name := d.name ++ ckptMarker }) =
      ckpt_to_dir p := by
  cases hr : ckpt_to_dir p with
  | error e => rfl
  | ok d =>
    have hdp : d = p := ckpt_to_dir_ok_unique h hr
    obtain ⟨hn1, hn2, hn3, _⟩ := ckpt_to_dir_ok_inv hr
    show ckpt_to_dir { d with name := d.name ++ ckptMarker } = Except.ok d
    have hsfx : pySuffix (d.name ++ ckptMarker) = ckptMarker := pySuffix_append_marker hn1
    have hstem : pyStem (d.name ++ ckptMarker) = d.name := pyStem_append_marker hn1
    have hmem : sep ∉ d.name ++ ckptMarker := by
      intro hc
      rcases List.mem_append.mp hc with hc1 | hc2
      · exact hn2 hc1
      · revert hc2
        decide
    have hres := ckpt_to_dir_strip (p := { d with name := d.name ++ ckptMarker })
      hsfx (by dsimp only; rw [hstem]; exact hn3) hmem
    rw [hres]
    dsimp only
    rw [hstem]

/-- Claim C3, witness: the theorem applied at the concrete path
`model.pt`. -/
theorem c3_witness :
    (ckpt_to_dir ⟨[], "model.pt".data⟩).bind
      (fun d => ckpt_to_dir { d with name := d.name ++ ckptMarker }) =
      ckpt_to_dir ⟨[], "model.pt".data⟩ :=
  c3_idempotent_on_unsuffixed ⟨[], "model.pt".data⟩ (by decide)

/-- Claim C9, counterexample: the claim states the oracle never raises
on a merely-absent path.  The path `..ckpt` is absent in the empty
filesystem, yet `is_distributed_ckpt` propagates a `ValueError` from
normalization (`with_name` rejects the stem '.') instead of returning
false. -/
theorem c9_counterexample :
    FS.existsb (FS.mk []) (PyPath.comps ⟨[], "..ckpt".data⟩) = false ∧
    is_distributed_ckpt beNo (FS.mk []) ⟨[], "..ckpt".data⟩ = .error .valueErrorInvalidName :=
  ⟨by decide, rfl⟩

/-- Claim C9 (amended): for every path whose directory normalization
succeeds, the oracle returns true iff the resolved directory is a
directory and the backend validity probe confirms a complete
distributed checkpoint; a true answer implies the directory exists,
and a merely-absent directory yields false without an error.  On the
degenerate identifiers for which normalization itself fails, the
normalization error propagates instead. -/
theorem c9_oracle (be : Backend) (fs : FS) (path d : PyPath) (h : ckpt_to_dir path = .ok d) :
    (is_distributed_ckpt be fs path = .ok true ↔
      fs.isdir d.comps = true ∧ be.check_is_distributed_checkpoint d.comps = true) ∧
    (is_distributed_ckpt be fs path = .ok true → fs.existsb d.comps = true) ∧
    (fs.existsb d.comps = false → is_distributed_ckpt be fs path = .ok false) := by
  have hue : is_distributed_ckpt be fs path =
      if fs.isdir d.comps ∧ be.check_is_distributed_checkpoint d.comps then
        Except.ok true
      else
        Except.ok false := by
    unfold is_distributed_ckpt
    rw [h]
  by_cases h1 : fs.isdir d.comps
  · by_cases h2 : be.check_is_distributed_checkpoint d.comps
    · refine ⟨by simp [hue, h1, h2], fun _ => FS.exists_of_isdir h1, fun he => ?_⟩
      rw [FS.isdir_false_of_not_exists he] at h1
      exact absurd h1 (by simp)
    · refine ⟨by simp [hue, h1, h2], fun hc => ?_, fun he => by simp [hue, h2]⟩
      rw [hue] at hc
      simp [h2] at hc
  · refine ⟨by simp [hue, h1], fun hc => ?_, fun he => by simp [hue, h1]⟩
    rw [hue] at hc
    simp [h1] at hc

/-- Claim C9, witness: the amended theorem applied at a concrete
directory that exists with a confirming probe. -/
theorem c9_witness :
    is_distributed_ckpt beYes (FS.mk [(["step10".data], NodeKind.dir)]) ⟨[], "step10".data⟩ =
      .ok true :=
  (c9_oracle beYes (FS.mk [(["step10".data], NodeKind.dir)]) ⟨[], "step10".data⟩
    ⟨[], "step10".data⟩ (by decide)).1.mpr ⟨by decide, rfl⟩

/-- Claim C10, counterexample: the claim states that for every path P,
`is_distributed_ckpt P` equals `is_distributed_ckpt (ckpt_to_dir P)`.
For `a.ckpt.ckpt` the first call probes directory `a.ckpt` while the
second strips another marker and probes `a`, so on a filesystem where
only `a.ckpt` is a complete checkpoint directory the answers differ. -/
theorem c10_counterexample :
    ckpt_to_dir ⟨[], "a.ckpt.ckpt".data⟩ = .ok ⟨[], "a.ckpt".data⟩ ∧
    is_distributed_ckpt beYes (FS.mk [(["a.ckpt".data], NodeKind.dir)])
      ⟨[], "a.ckpt.ckpt".data⟩ = .ok true ∧
    is_distributed_ckpt beYes (FS.mk [(["a.ckpt".data], NodeKind.dir)])
      ⟨[], "a.ckpt".data⟩ = .ok false :=
  ⟨by decide, rfl, rfl⟩

/-- Claim C10 (amended): the oracle normalizes through `ckpt_to_dir`
before probing, so whenever the normalized directory `d` of a path
does not itself carry the `.ckpt` marker suffix, classifying the path
and classifying `d` agree; in particular a marker-suffixed identifier
and its stripped directory form are classified identically.  The
agreement can fail only when the normalized directory itself ends in
the marker (identifiers ending in `.ckpt.ckpt`). -/
theorem c10_oracle_normalizes (be : Backend) (fs : FS) (p d : PyPath)
    (h : ckpt_to_dir p = .ok d) (h2 : pySuffix d.name ≠ ckptMarker) :
    is_distributed_ckpt be fs p = is_distributed_ckpt be fs d := by
  obtain ⟨hn1, hn2, hn3, _⟩ := ckpt_to_dir_ok_inv h
  have hd : ckpt_to_dir d = .ok d := ckpt_to_dir_id hn1 hn3 hn2 h2
  unfold is_distributed_ckpt
  rw [h, hd]

/-- Claim C10, witness: the amended theorem applied to the
marker-suffixed identifier `model.ckpt` and its stripped directory
form `model`. -/
theorem c10_witness :
    is_distributed_ckpt beNo (FS.mk []) ⟨[], "model.ckpt".data⟩ =
      is_distributed_ckpt beNo (FS.mk []) ⟨[], "model".data⟩ :=
  c10_oracle_normalizes beNo (FS.mk []) ⟨[], "model.ckpt".data⟩ ⟨[], "model".data⟩
    (by decide) (by decide)

/-- Claim C1: a save call with null storage options, whose resolved
checkpoint directory exists as a directory and whose backend probe
confirms a complete distributed checkpoint, succeeds while performing
only the two read-only probe calls: the filesystem is unchanged and no
makedirs and no backend write occur. -/
theorem c1_save_skips_complete_checkpoint {α : Type} (be : Backend) (fs : FS) (ckpt : Value)
    (path d : PyPath) (h : ckpt_to_dir path = .ok d) (h2 : fs.isdir d.comps = true)
    (h3 : be.check_is_distributed_checkpoint d.comps = true) :
    save_checkpoint be fs ckpt path (none : Option α) =
      (.ok (), fs, [.queryIsDir d.comps, .probeComplete d.comps]) := by
  unfold save_checkpoint
  rw [h]
  simp [h2, h3]

/-- Claim C1, witness: the theorem applied at the identifier
`step10.ckpt`, resolving to the existing complete directory
`step10`. -/
theorem c1_witness :
    save_checkpoint beYes (FS.mk [(["step10".data], NodeKind.dir)]) Value.nil
      ⟨[], "step10.ckpt".data⟩ (none : Option Unit) =
      (.ok (), FS.mk [(["step10".data], NodeKind.dir)],
       [.queryIsDir ["step10".data], .probeComplete ["step10".data]]) :=
  c1_save_skips_complete_checkpoint beYes (FS.mk [(["step10".data], NodeKind.dir)]) Value.nil
    ⟨[], "step10.ckpt".data⟩ ⟨[], "step10".data⟩ (by decide) (by decide) rfl

/-- Claim C4: a save call with non-null storage options fails with the
`TypeError` of the source (the spec's UnsupportedOption) leaving the
filesystem unchanged and performing no collaborator call at all, and a
load call with non-null map_location fails with the corresponding
`ValueError` performing no collaborator call; both failures therefore
precede any path normalization effect, existence check, directory
creation or backend delegation. -/
theorem c4_unsupported_options_fail_fast {α β : Type} (be : Backend) (fs : FS) (ckpt : Value)
    (path : PyPath) (o : α) (ci : Bool) (cd : Nat) (ssd : Option Value) (m : β) :
    save_checkpoint be fs ckpt path (some o) = (.error .typeError, fs, []) ∧
    load_checkpoint be fs ci cd path ssd (some m) = (.error .valueErrorMapLocation, []) :=
  ⟨by simp [save_checkpoint], by simp [load_checkpoint]⟩

/-- Claim C5: a load call with null map_location on a path that is not
a directory fails before any backend delegation: if the path does not
exist the outcome is the source's `FileNotFoundError` (the spec's
NotFound) after only the existence query, and if it exists but is not
a directory the outcome is the `ValueError` (the spec's InvalidLayout)
after the existence and directory queries; no backend read occurs and
the backend (including one that always errors) cannot influence the
outcome since it is universally quantified. -/
theorem c5_load_error_classification {β : Type} (be : Backend) (fs : FS) (ci : Bool) (cd : Nat)
    (path : PyPath) (ssd : Option Value) (h : fs.isdir path.comps = false) :
    load_checkpoint be fs ci cd path ssd (none : Option β) =
      (if fs.existsb path.comps then
        (.error .valueErrorNotADirectory, [.queryExists path.comps, .queryIsDir path.comps])
      else
        (.error .fileNotFoundError, [.queryExists path.comps])) := by
  by_cases he : fs.existsb path.comps
  · simp [load_checkpoint, he, h]
  · simp [load_checkpoint, he]

/-- Claim C5, witness: the theorem applied to a filesystem holding the
target as a plain file (InvalidLayout case) and to an empty
filesystem (NotFound case), with an always-failing backend. -/
theorem c5_witness :
    load_checkpoint beNo (FS.mk [(["ck".data], NodeKind.file)]) true 0 ⟨[], "ck".data⟩ none
      (none : Option Unit) =
      (.error .valueErrorNotADirectory,
       [.queryExists (PyPath.comps ⟨[], "ck".data⟩), .queryIsDir (PyPath.comps ⟨[], "ck".data⟩)]) ∧
    load_checkpoint beNo (FS.mk []) true 0 ⟨[], "ck".data⟩ none (none : Option Unit) =
      (.error .fileNotFoundError, [.queryExists (PyPath.comps ⟨[], "ck".data⟩)]) :=
  ⟨(c5_load_error_classification beNo (FS.mk [(["ck".data], NodeKind.file)]) true 0
      ⟨[], "ck".data⟩ none (by decide)).trans (by decide),
   (c5_load_error_classification beNo (FS.mk []) true 0 ⟨[], "ck".data⟩ none
      (by decide)).trans (by decide)⟩

/-- Claim C6: a load call consults the caller-supplied path exactly as
given: its outcome depends only on the existence query, the directory
query and the backend read at the raw path (any two environments
agreeing there give identical results), and every collaborator call in
its trace targets the raw path; in particular no marker-extension
normalization is applied on load. -/
theorem c6_load_uses_raw_path {β : Type} (be be2 : Backend) (fs fs2 : FS) (ci : Bool)
    (cd : Nat) (path : PyPath) (ssd : Option Value)
    (h1 : fs.existsb path.comps = fs2.existsb path.comps)
    (h2 : fs.isdir path.comps = fs2.isdir path.comps)
    (h3 : be.load ssd path.comps = be2.load ssd path.comps) :
    load_checkpoint be fs ci cd path ssd (none : Option β) =
      load_checkpoint be2 fs2 ci cd path ssd (none : Option β) ∧
    ∀ e ∈ (load_checkpoint be fs ci cd path ssd (none : Option β)).2,
      e.target = path.comps := by
  constructor
  · unfold load_checkpoint
    rw [h1, h2, h3]
  · intro e he
    unfold load_checkpoint at he
    split at he
    · simp at he
    split at he
    · simp only [List.mem_singleton] at he
      subst he
      rfl
    split at he
    · simp only [List.mem_cons, List.not_mem_nil, or_false] at he
      rcases he with he | he
      all_goals subst he
      all_goals rfl
    split at he
    · simp only [List.mem_cons, List.not_mem_nil, or_false] at he
      rcases he with he | he | he
      all_goals subst he
      all_goals rfl
    split at he
    all_goals simp only [List.mem_cons, List.not_mem_nil, or_false] at he
    all_goals rcases he with he | he | he
    all_goals subst he
    all_goals rfl

/-- Claim C6, witness: the theorem applied to one concrete
environment (trivially agreeing with itself at the raw path). -/
theorem c6_witness :
    load_checkpoint beNo (FS.mk []) true 0 ⟨[], "raw".data⟩ none (none : Option Unit) =
      load_checkpoint beNo (FS.mk []) true 0 ⟨[], "raw".data⟩ none (none : Option Unit) ∧
    ∀ e ∈ (load_checkpoint beNo (FS.mk []) true 0 ⟨[], "raw".data⟩ none
        (none : Option Unit)).2,
      e.target = PyPath.comps ⟨[], "raw".data⟩ :=
  c6_load_uses_raw_path beNo beNo (FS.mk []) (FS.mk []) true 0 ⟨[], "raw".data⟩ none
    rfl rfl rfl

/-- Claim C7: a remove call on an absent path is a no-op that leaves
the filesystem untouched after the sole existence query (the source
has no failure outcome at all), a remove call on an existing path
keeps exactly the nodes not lying under the removed path (recursive
deletion), and in both cases the path is absent afterwards. -/
theorem c7_remove_semantics (fs : FS) (path : PyPath) :
    remove_checkpoint fs path =
      (if fs.existsb path.comps then
        (FS.mk (fs.nodes.filter (fun e => !(path.comps.isPrefixOf e.1))),
         [.queryExists path.comps, .rmTree path.comps])
      else
        (fs, [.queryExists path.comps])) ∧
    (remove_checkpoint fs path).1.existsb path.comps = false := by
  constructor
  · by_cases h : fs.existsb path.comps
    · simp [remove_checkpoint, FS.rmtree, h]
    · simp [remove_checkpoint, h]
  · by_cases h : fs.existsb path.comps
    · simp only [remove_checkpoint, h, if_true]
      exact FS.existsb_rmtree_false fs path.comps
    · simp only [remove_checkpoint, h, if_false]
      simpa using h

/-- Claim C8: under the precondition that cuda is initialized, the
device fixup is the out-of-place leaf map of `_fix_device` over the
payload; non-tensor leaves and empty or compound structure nodes pass
through `_fix_device` unchanged, a non-accelerator tensor and a tensor
already on the current device are returned unchanged, an accelerator
tensor on a different device is replaced by a copy of the same data on
the current device, and when every tensor leaf already lies on the
current device the whole pass returns the payload value-equal. -/
theorem c8_device_fixup (b : Bool) (cur : Nat) (ckpt : Value) (hb : b = true) :
    _fix_tensors_device b cur ckpt =
      .ok (dict_list_map_outplace (_fix_device (Device.cuda cur)) ckpt) ∧
    (∀ x : Int, _fix_device (Device.cuda cur) (.scalar x) = .scalar x) ∧
    _fix_device (Device.cuda cur) .nil = .nil ∧
    (∀ k h t, _fix_device (Device.cuda cur) (.cons k h t) = .cons k h t) ∧
    (∀ d x, d.is_cuda = false → _fix_device (Device.cuda cur) (.tensor d x) = .tensor d x) ∧
    (∀ x, _fix_device (Device.cuda cur) (.tensor (Device.cuda cur) x) =
      .tensor (Device.cuda cur) x) ∧
    (∀ d x, d.is_cuda = true → d ≠ Device.cuda cur →
      _fix_device (Device.cuda cur) (.tensor d x) = .tensor (Device.cuda cur) x) ∧
    (allTensorsOnCurrent cur ckpt = true → _fix_tensors_device b cur ckpt = .ok ckpt) := by
  subst hb
  refine ⟨by simp [_fix_tensors_device], fun x => rfl, rfl, fun k h t => rfl, ?_, ?_, ?_, ?_⟩
  · intro d x hd
    simp [_fix_device, hd]
  · intro x
    simp [_fix_device]
  · intro d x hd hne
    simp [_fix_device, hd, hne]
  · intro hall
    simp [_fix_tensors_device, map_fix_device_id hall]

/-- Claim C8, witness: the theorem applied at a concrete payload
holding one misplaced cuda tensor, one correctly placed tensor and one
scalar. -/
theorem c8_witness :
    _fix_tensors_device true 0
      (Value.cons (some "w".data) (Value.tensor (Device.cuda 1) 7)
        (Value.cons none (Value.tensor (Device.cuda 0) 3)
          (Value.cons none (Value.scalar 5) Value.nil))) =
      .ok (Value.cons (some "w".data) (Value.tensor (Device.cuda 0) 7)
        (Value.cons none (Value.tensor (Device.cuda 0) 3)
          (Value.cons none (Value.scalar 5) Value.nil))) :=
  ((c8_device_fixup true 0
      (Value.cons (some "w".data) (Value.tensor (Device.cuda 1) 7)
        (Value.cons none (Value.tensor (Device.cuda 0) 3)
          (Value.cons none (Value.scalar 5) Value.nil))) rfl).1).trans (by decide)
